import Mathlib

/-!
Verification of the asset-backup pipeline of the `prismic-backup` utility
(`src/PrismicBackup.js`): the batched asset downloader, the paginated
asset lister, the failure manifest, and the fetch-and-persist exporters.

The JavaScript code is shallowly embedded: network responses are supplied
by explicit oracle functions, the filesystem is modelled by recording the
written artifacts in result records, and exceptions are modelled with
`Except`/`Option`.
-/

namespace PrismicBackup

/-- An asset descriptor from the Prismic media library.  The downloader
reads only the `url` and `filename` fields (`src/PrismicBackup.js`
treats descriptors as opaque otherwise).  `url = none` models a
descriptor whose `url` field is absent or not a string, in which case
`asset.url.split` throws a `TypeError` in the JS code. -/
structure Asset where
  url : Option String
  filename : String
deriving DecidableEq

/-- JS `response.ok`: the HTTP status is in the 2xx range. -/
def statusOk (s : Nat) : Bool := 200 ≤ s && s ≤ 299

/-- Value of a hexadecimal digit, `none` for a non-hex character. -/
def hexVal (c : Char) : Option Nat :=
  if '0' ≤ c && c ≤ '9' then some (c.toNat - '0'.toNat)
  else if 'A' ≤ c && c ≤ 'F' then some (c.toNat - 'A'.toNat + 10)
  else if 'a' ≤ c && c ≤ 'f' then some (c.toNat - 'a'.toNat + 10)
  else none

/-- A UTF-8 continuation byte read from two hex digits: its low six bits,
or `none` when the digits are not hex or the byte is not a continuation
byte (`0x80 ≤ b < 0xC0`). -/
def contByte (h₁ h₂ : Char) : Option Nat :=
  match hexVal h₁, hexVal h₂ with
  | some a, some b =>
    let v := 16 * a + b
    if 0x80 ≤ v && v < 0xC0 then some (v - 0x80) else none
  | _, _ => none

/-- Percent-decoding of a character sequence, following the JS
`decodeURIComponent` builtin used by `downloadAsset`: each `%XX` escape
contributes one byte, multi-byte UTF-8 sequences are decoded to a single
character, and a malformed escape sequence raises `URIError`, modelled
as `none`.  Characters other than `%` pass through unchanged. -/
def pctDecode : List Char → Option (List Char)
  | [] => some []
  | '%' :: h₁ :: h₂ :: rest =>
    match hexVal h₁, hexVal h₂ with
    | some a, some b =>
      let v := 16 * a + b
      if v < 0x80 then
        (pctDecode rest).map (Char.ofNat v :: ·)
      else if v < 0xC0 then none
      else if v < 0xE0 then
        match rest with
        | '%' :: g₁ :: g₂ :: rest₂ =>
          match contByte g₁ g₂ with
          | some c₁ => (pctDecode rest₂).map (Char.ofNat ((v - 0xC0) * 64 + c₁) :: ·)
          | none => none
        | _ => none
      else if v < 0xF0 then
        match rest with
        | '%' :: g₁ :: g₂ :: '%' :: k₁ :: k₂ :: rest₂ =>
          match contByte g₁ g₂, contByte k₁ k₂ with
          | some c₁, some c₂ =>
            (pctDecode rest₂).map (Char.ofNat ((v - 0xE0) * 4096 + c₁ * 64 + c₂) :: ·)
          | _, _ => none
        | _ => none
      else if v < 0xF8 then
        match rest with
        | '%' :: g₁ :: g₂ :: '%' :: k₁ :: k₂ :: '%' :: m₁ :: m₂ :: rest₂ =>
          match contByte g₁ g₂, contByte k₁ k₂, contByte m₁ m₂ with
          | some c₁, some c₂, some c₃ =>
            (pctDecode rest₂).map
              (Char.ofNat ((v - 0xF0) * 262144 + c₁ * 4096 + c₂ * 64 + c₃) :: ·)
          | _, _, _ => none
        | _ => none
      else none
    | _, _ => none
  | '%' :: _ => none
  | c :: rest => (pctDecode rest).map (c :: ·)

/-- JS `decodeURIComponent`; `none` models a thrown `URIError`. -/
def decodeURIComponent (s : String) : Option String :=
  (pctDecode s.toList).map List.asString

/-- Auxiliary state for `splitOnChar`: the reversed current segment. -/
def splitOnCharAux (sep : Char) : List Char → List Char → List (List Char)
  | [], cur => [cur.reverse]
  | c :: rest, cur =>
    if c = sep then cur.reverse :: splitOnCharAux sep rest []
    else splitOnCharAux sep rest (c :: cur)

/-- JS `String.prototype.split` with a single-character separator: the
result is always non-empty, and `"".split(sep) = [""]`. -/
def splitOnChar (sep : Char) (s : String) : List String :=
  (splitOnCharAux sep s.toList []).map List.asString

/-- `asset.url.split("?")[0]`: everything before the first `?`. -/
def stripQuery (u : String) : String := (splitOnChar '?' u).headD ""

/-- `assetUrl.split("/").pop()`: everything after the last `/`. -/
def lastSegment (u : String) : String := (splitOnChar '/' u).getLastD ""

/-- The on-disk filename `downloadAsset` derives from an asset URL:
strip the query string, take the last path segment, percent-decode it
(`none` when `decodeURIComponent` throws). -/
def derivedFilename (u : String) : Option String :=
  decodeURIComponent (lastSegment (stripQuery u))

/-- The on-disk filename derived from a whole descriptor: `none` when
the `url` field is missing or the decoding throws, i.e. exactly when the
code before the `try` block of `downloadAsset` raises. -/
def derivedName (a : Asset) : Option String :=
  match a.url with
  | none => none
  | some u => derivedFilename u

/-- The filename derivation in `downloadAsset` succeeds without
throwing. -/
def goodAsset (a : Asset) : Bool := (derivedName a).isSome

/-- The network oracle for asset binaries: for each asset, `none` is a
network-level failure of the unauthenticated `fetch`, `some s` a
response with HTTP status `s`. -/
abbrev Net := Asset → Option Nat

/-- The download attempt for an asset succeeds: the fetch returns a
response with a 2xx status (the `catch` in `downloadAsset` fires
otherwise). -/
def downloadOk (net : Net) (a : Asset) : Bool :=
  match net a with
  | some s => statusOk s
  | none => false

/-- The mutable per-instance state of `PrismicBackup` touched by the
downloader: the private `#failedAssets` array and, as a model of the
filesystem, the sequence of filenames written into the assets folder. -/
structure DLState where
  failedAssets : List Asset
  written : List String
deriving DecidableEq

/-- `downloadAsset(asset, dest)`.  The canonical URL and the filename
are computed before the `try` block, so a missing `url` field or a
`URIError` from `decodeURIComponent` escapes as `Except.error`.  Inside
the `try`, a network failure or a non-2xx status is caught and appends
the original descriptor to `#failedAssets`; on success the body is
written to the derived filename. -/
def downloadAsset (net : Net) (asset : Asset) (s : DLState) : Except Unit DLState :=
  match asset.url with
  | none => .error ()
  | some url =>
    let assetUrl := stripQuery url
    match decodeURIComponent (lastSegment assetUrl) with
    | none => .error ()
    | some hashedFilename =>
      .ok <|
        match net asset with
        | some status =>
          if statusOk status then
            { s with written := s.written ++ [hashedFilename] }
          else
            { s with failedAssets := s.failedAssets ++ [asset] }
        | none => { s with failedAssets := s.failedAssets ++ [asset] }

/-- One chunk of `downloadAssets`: `await Promise.all(batch.map(...))`.
Every member of the chunk is started, so the state effects of members
that do not throw all occur; the flag records whether some member's
promise rejected (a pre-`try` throw in `downloadAsset`), which makes the
`Promise.all` reject. -/
def downloadChunk (net : Net) (s : DLState) (chunk : List Asset) : DLState × Bool :=
  chunk.foldl
    (fun acc a =>
      match downloadAsset net a acc.1 with
      | .error _ => (acc.1, true)
      | .ok s' => (s', acc.2))
    (s, false)

/-- The chunking of the `for (let i = 0; i < assets.length; i += BATCH_SIZE)`
loop: contiguous slices `assets.slice(i, i + B)` in input order. -/
def chunksOf (B : Nat) : List α → List (List α)
  | [] => []
  | x :: xs => (x :: xs.take (B - 1)) :: chunksOf B (xs.drop (B - 1))
termination_by l => l.length
decreasing_by
  simp only [List.length_cons, List.length_drop]
  omega

/-- The chunk loop of `downloadAssets`: chunks are awaited strictly in
order; a rejected `Promise.all` makes the loop's `await` throw, so no
later chunk is started (`true` flags the abort). -/
def downloadChunks (net : Net) : DLState → List (List Asset) → DLState × Bool
  | s, [] => (s, false)
  | s, c :: cs =>
    match downloadChunk net s c with
    | (s', true) => (s', true)
    | (s', false) => downloadChunks net s' cs

/-- `#logFailedAssets()`: the content of `failed-assets.json` when it is
written, `none` when the method returns without writing because
`#failedAssets.length === 0`. -/
def logFailedAssets (s : DLState) : Option (List Asset) :=
  if s.failedAssets.length = 0 then none else some s.failedAssets

/-- Observable outcome of one `downloadAssets(assets)` call. -/
structure DLResult where
  /-- Final instance state (failed assets and files written). -/
  state : DLState
  /-- The "No assets found" warning was logged. -/
  warned : Bool
  /-- Content of `failed-assets.json`, `none` when not written. -/
  manifest : Option (List Asset)
  /-- The final `Downloaded s/n assets successfully` log: `(s, n)`,
  with `s = n - #failedAssets.length` as JS number arithmetic. -/
  successLog : Option (Int × Nat)
  /-- The outer `catch` fired and logged the process failure. -/
  errorLogged : Bool
deriving DecidableEq

/-- `downloadAssets(assets)` on an explicitly provided list, starting
from instance state `s₀` (the `#failedAssets` field is created empty at
construction and never reset between calls). -/
def downloadAssets (net : Net) (s₀ : DLState) (assets : List Asset) : DLResult :=
  if assets.length = 0 then
    { state := s₀, warned := true, manifest := none, successLog := none, errorLogged := false }
  else
    match downloadChunks net s₀ (chunksOf 10 assets) with
    | (s, true) =>
      { state := s, warned := false, manifest := none, successLog := none, errorLogged := true }
    | (s, false) =>
      { state := s, warned := false, manifest := logFailedAssets s,
        successLog := some ((assets.length : Int) - s.failedAssets.length, assets.length),
        errorLogged := false }

/-! ## Paginated asset lister (`exportAssetsList`) -/

/-- JS truthiness of the `cursor` field of a parsed listing page:
`undefined`/`null` and the empty string are falsy. -/
def jsTruthy : Option String → Bool
  | none => false
  | some s => s ≠ ""

/-- One parsed response of the assets-listing API: HTTP status and, when
the status is 2xx and the body is read, the `items` array and the
optional `cursor`. -/
structure Page where
  status : Nat
  items : List Asset
  cursor : Option String
deriving DecidableEq

/-- The listing server: maps the `cursor` query parameter of a request
(`none` on the first request, before any `searchParams.set`) to the
response page. -/
abbrev ListServer := Option String → Page

/-- Outcome of the `while (true)` pagination loop of
`exportAssetsList`: all accumulated items with the cursors of the
requests issued, or the thrown non-2xx error (caught by the method,
which then logs and returns `undefined`), or exhaustion of the model's
fuel (the JS loop would still be chasing cursors). -/
inductive ListOutcome
  | ok (items : List Asset) (requests : List (Option String))
  | httpError (requests : List (Option String))
  | noFuel
deriving DecidableEq

/-- The pagination loop: issue a request with the current cursor; a
non-2xx status throws; otherwise append `data.items`, stop when
`data.cursor` is falsy, else continue with the new cursor. -/
def listLoop (server : ListServer) :
    Nat → Option String → List Asset → List (Option String) → ListOutcome
  | 0, _, _, _ => .noFuel
  | fuel + 1, cursor, acc, reqs =>
    let resp := server cursor
    if statusOk resp.status then
      let acc := acc ++ resp.items
      if jsTruthy resp.cursor then listLoop server fuel resp.cursor acc (reqs ++ [cursor])
      else .ok acc (reqs ++ [cursor])
    else .httpError (reqs ++ [cursor])

/-- `exportAssetsList()`: run the pagination loop from a cursorless
first request.  On `.ok items _` the method writes `assets.json` with
exactly `items` and returns them; on `.httpError _` the catch block
logs the error and the method returns `undefined`. -/
def exportAssetsList (server : ListServer) (fuel : Nat) : ListOutcome :=
  listLoop server fuel none [] []

/-- A server serves a finite chain of pages starting from cursor `c`:
every page has a 2xx status, every page but the last carries a truthy
cursor under which the server serves the next page, and the last page's
cursor is falsy. -/
def chainServes (server : ListServer) : Option String → List Page → Prop
  | _, [] => False
  | c, [p] => server c = p ∧ statusOk p.status = true ∧ jsTruthy p.cursor = false
  | c, p :: q :: rest =>
    server c = p ∧ statusOk p.status = true ∧ jsTruthy p.cursor = true ∧
      chainServes server p.cursor (q :: rest)

/-- The cursor of each request issued while walking a chain of pages
from initial cursor `c`. -/
def chainRequests : Option String → List Page → List (Option String)
  | _, [] => []
  | c, p :: rest => c :: chainRequests p.cursor rest

/-- A server reaches a non-2xx response after serving the chain `pages`
from cursor `c`: every page of `pages` is 2xx with a truthy cursor, and
the request after the last page of `pages` gets a non-2xx status. -/
def chainToError (server : ListServer) : Option String → List Page → Prop
  | c, [] => statusOk (server c).status = false
  | c, p :: rest =>
    server c = p ∧ statusOk p.status = true ∧ jsTruthy p.cursor = true ∧
      chainToError server p.cursor rest

/-- The cursor carried by the request that receives the non-2xx
response, after the chain `pages` has been served. -/
def chainErrCursor : Option String → List Page → Option String
  | c, [] => c
  | _, p :: rest => chainErrCursor p.cursor rest

/-! ## Fetch-and-persist exporters -/

/-- Observable outcome of one fetch-and-persist exporter call: whether
the empty-result warning was logged, the written file's content
(`none` when no file is written), the value returned to the caller
(`none` is `undefined`), and whether the catch block logged an error. -/
structure ExporterResult (β ρ : Type) where
  warned : Bool
  written : Option β
  ret : Option ρ
  errorLogged : Bool
deriving DecidableEq

/-- `exportTags()`.  The fetch oracle is `.error` when `getTags()`
rejects.  `tags.length < 1` warns and skips; otherwise `tags.txt` is
written with the newline-joined tags. -/
def exportTags (fetched : Except Unit (List String)) : ExporterResult String (List String) :=
  match fetched with
  | .error _ => { warned := false, written := none, ret := none, errorLogged := true }
  | .ok tags =>
    if tags.length < 1 then
      { warned := true, written := none, ret := none, errorLogged := false }
    else
      { warned := false, written := some (String.intercalate "\n" tags),
        ret := some tags, errorLogged := false }

/-- `exportCustomTypes()`.  The oracle is `.error` for a rejected fetch,
`.ok (status, body)` for a response with that status whose parsed JSON
body is `body`.  A non-2xx status throws into the catch; otherwise the
body is written to `custom-types.json` unconditionally — the method has
no empty-result check. -/
def exportCustomTypes (resp : Except Unit (Nat × List κ)) :
    ExporterResult (List κ) (List κ) :=
  match resp with
  | .error _ => { warned := false, written := none, ret := none, errorLogged := true }
  | .ok (status, body) =>
    if statusOk status then
      { warned := false, written := some body, ret := some body, errorLogged := false }
    else
      { warned := false, written := none, ret := none, errorLogged := true }

/-- `exportSharedSlices()`.  Like `exportCustomTypes` but with the
empty-result guard `sharedSlices && sharedSlices.length === 0`, which
warns and skips the write. -/
def exportSharedSlices (resp : Except Unit (Nat × List σ)) :
    ExporterResult (List σ) (List σ) :=
  match resp with
  | .error _ => { warned := false, written := none, ret := none, errorLogged := true }
  | .ok (status, body) =>
    if statusOk status then
      if body.length = 0 then
        { warned := true, written := none, ret := none, errorLogged := false }
      else
        { warned := false, written := some body, ret := some body, errorLogged := false }
    else
      { warned := false, written := none, ret := none, errorLogged := true }

/-- `exportRepositoryDetails()`: fetch the repository object; a falsy
result warns and skips, otherwise `repository.json` is written. -/
def exportRepositoryDetails (fetched : Except Unit (Option ρ)) : ExporterResult ρ ρ :=
  match fetched with
  | .error _ => { warned := false, written := none, ret := none, errorLogged := true }
  | .ok none => { warned := true, written := none, ret := none, errorLogged := false }
  | .ok (some repo) =>
    { warned := false, written := some repo, ret := some repo, errorLogged := false }

/-- The `allDocs.reduce` step of `exportDocuments`: append the document
to its type's bucket, creating the bucket at the end on first sight of
the type (JS object property insertion order). -/
def groupInsert (ty : String) (d : δ) : List (String × List δ) → List (String × List δ)
  | [] => [(ty, [d])]
  | (t, ds) :: rest =>
    if t = ty then (t, ds ++ [d]) :: rest else (t, ds) :: groupInsert ty d rest

/-- `allDocs.reduce((acc, doc) => ...)`: group documents by their `type`
field, preserving first-seen type order and document order. -/
def groupByType (getType : δ → String) (docs : List δ) : List (String × List δ) :=
  docs.foldl (fun acc d => groupInsert (getType d) d acc) []

/-- Observable outcome of `exportDocuments()`: the combined
`documents.json` content, and the per-type files under `documents/`. -/
structure DocExportResult (δ : Type) where
  warned : Bool
  mainFile : Option (List δ)
  typeFiles : List (String × List δ)
  ret : Option (List δ)
  errorLogged : Bool
deriving DecidableEq

/-- `exportDocuments()`: fetch all documents; zero documents warns and
skips; otherwise write the combined file and one file per document
type. -/
def exportDocuments (getType : δ → String) (fetched : Except Unit (List δ)) :
    DocExportResult δ :=
  match fetched with
  | .error _ =>
    { warned := false, mainFile := none, typeFiles := [], ret := none, errorLogged := true }
  | .ok allDocs =>
    if allDocs.length = 0 then
      { warned := true, mainFile := none, typeFiles := [], ret := none, errorLogged := false }
    else
      { warned := false, mainFile := some allDocs,
        typeFiles := groupByType getType allDocs, ret := some allDocs,
        errorLogged := false }

/-! ## Asset pipeline and orchestrator -/

/-- Outcome of `downloadAssets()` when called with no argument: the
assets list is first fetched via `exportAssetsList()`; if that returned
`undefined` (its catch fired) the downloader returns at once. -/
structure PipelineResult where
  /-- Content of `assets.json`, `none` when the listing aborted. -/
  listingFile : Option (List Asset)
  /-- The download phase's outcome, `none` when it never ran. -/
  dl : Option DLResult
  /-- Final instance state. -/
  state : DLState
  /-- Model artifact: the pagination loop ran out of fuel. -/
  outOfFuel : Bool
deriving DecidableEq

/-- `downloadAssets()` with no explicit list (the orchestrator's call):
fetch the list, return immediately when the lister yielded `undefined`,
otherwise download the listed assets. -/
def downloadAssetsPipeline (server : ListServer) (fuel : Nat) (net : Net)
    (s₀ : DLState) : PipelineResult :=
  match exportAssetsList server fuel with
  | .noFuel => { listingFile := none, dl := none, state := s₀, outOfFuel := true }
  | .httpError _ => { listingFile := none, dl := none, state := s₀, outOfFuel := false }
  | .ok items _ =>
    let r := downloadAssets net s₀ items
    { listingFile := some items, dl := some r, state := r.state, outOfFuel := false }

/-- The environment of one `run()` call: one oracle per concurrent
task. -/
structure RunEnv (ρ δ κ σ : Type) where
  repoFetch : Except Unit (Option ρ)
  docsFetch : Except Unit (List δ)
  docType : δ → String
  tagsFetch : Except Unit (List String)
  ctResp : Except Unit (Nat × List κ)
  slResp : Except Unit (Nat × List σ)
  assetServer : ListServer
  fuel : Nat
  net : Net

/-- Observable outcome of `run()`: the six tasks' results and whether
the final duration line was logged after `Promise.all(tasks)`. -/
structure RunResult (ρ δ κ σ : Type) where
  repo : ExporterResult ρ ρ
  docs : DocExportResult δ
  tags : ExporterResult String (List String)
  customTypes : ExporterResult (List κ) (List κ)
  slices : ExporterResult (List σ) (List σ)
  assets : PipelineResult
  durationLogged : Bool

/-- `run()`: launch the six tasks, wait for all, log the duration.  The
instance starts with an empty `#failedAssets`. -/
def run (env : RunEnv ρ δ κ σ) : RunResult ρ δ κ σ :=
  { repo := exportRepositoryDetails env.repoFetch
    docs := exportDocuments env.docType env.docsFetch
    tags := exportTags env.tagsFetch
    customTypes := exportCustomTypes env.ctResp
    slices := exportSharedSlices env.slResp
    assets := downloadAssetsPipeline env.assetServer env.fuel env.net ⟨[], []⟩
    durationLogged := true }

/-! ## Concrete sample data used to exercise the model -/

/-- A sample asset with a well-formed URL carrying a query string. -/
def sampleAsset (i : Nat) : Asset :=
  { url := some ("https://images.prismic.io/repo/a" ++ toString i ++ ".png?auto=compress"),
    filename := "photo " ++ toString i ++ ".png" }

/-- A sample network oracle: asset `a2.png` gets a 404, the rest 200. -/
def sampleNet : Net := fun a =>
  if a = sampleAsset 2 then some 404 else some 200

/-- The two listing pages of the worked example in the specification. -/
def samplePages : List Page :=
  [{ status := 200, items := [sampleAsset 0, sampleAsset 1], cursor := some "c1" },
   { status := 200, items := [sampleAsset 2], cursor := none }]

/-- A listing server serving the two sample pages: the cursorless first
request gets page 1, the request carrying cursor `c1` gets page 2. -/
def sampleServer : ListServer
  | none => { status := 200, items := [sampleAsset 0, sampleAsset 1], cursor := some "c1" }
  | some _ => { status := 200, items := [sampleAsset 2], cursor := none }

/-- A listing server whose second page answers 500. -/
def sampleBadServer : ListServer
  | none => { status := 200, items := [sampleAsset 0, sampleAsset 1], cursor := some "c1" }
  | some _ => { status := 500, items := [], cursor := none }

/-- A descriptor whose `url` field is absent: the pre-`try` code of
`downloadAsset` throws a `TypeError` on it. -/
def badAsset : Asset := { url := none, filename := "broken.png" }

/-- A sample run environment in which every JSON fetch rejects and the
asset listing serves the two sample pages. -/
def sampleEnv : RunEnv Unit Unit Unit Unit :=
  { repoFetch := .error (), docsFetch := .error (), docType := fun _ => "t",
    tagsFetch := .error (), ctResp := .error (), slResp := .error (),
    assetServer := sampleServer, fuel := 2, net := sampleNet }

/-- The state reached by a run of download attempts over `l` from state
`s`, assuming no attempt threw before its `try` block: descriptors whose
download failed are appended to `#failedAssets` in order, successful
downloads append their derived filename to the assets folder. -/
def runState (net : Net) (s : DLState) (l : List Asset) : DLState :=
  { failedAssets :=
      s.failedAssets ++ l.filter (fun a => goodAsset a && !downloadOk net a),
    written :=
      s.written ++ l.filterMap
        (fun a => if goodAsset a && downloadOk net a then derivedName a else none) }

/-! ## Helper lemmas: the per-asset and per-chunk step -/

/-- `downloadAsset` in terms of `derivedName` and `downloadOk`. -/
theorem downloadAsset_eq (net : Net) (a : Asset) (s : DLState) :
    downloadAsset net a s =
      match derivedName a with
      | none => .error ()
      | some nm =>
        .ok (if downloadOk net a
          then { s with written := s.written ++ [nm] }
          else { s with failedAssets := s.failedAssets ++ [a] }) := by
  cases h : a.url with
  | none => simp [downloadAsset, derivedName, h]
  | some u =>
    simp only [downloadAsset, derivedName, h, derivedFilename]
    cases hd : decodeURIComponent (lastSegment (stripQuery u)) with
    | none => rfl
    | some nm =>
      unfold downloadOk
      rcases net a with _ | st <;> rfl

/-- The fold of `downloadChunk`, for an arbitrary initial flag. -/
theorem downloadChunk_foldl (net : Net) (chunk : List Asset) :
    ∀ (s : DLState) (b : Bool),
      chunk.foldl
        (fun acc a =>
          match downloadAsset net a acc.1 with
          | .error _ => (acc.1, true)
          | .ok s' => (s', acc.2)) (s, b) =
      (runState net s chunk, b || chunk.any (fun a => !goodAsset a)) := by
  induction chunk with
  | nil => intro s b; simp [runState]
  | cons a rest ih =>
    intro s b
    simp only [List.foldl_cons, List.any_cons]
    rw [downloadAsset_eq]
    cases h : derivedName a with
    | none =>
      have hg : goodAsset a = false := by simp [goodAsset, h]
      simp only [hg]
      rw [ih]
      simp [runState, hg]
    | some nm =>
      have hg : goodAsset a = true := by simp [goodAsset, h]
      cases hok : downloadOk net a with
      | true =>
        simp only [hok, if_true]
        rw [ih]
        simp [runState, hg, hok, h, List.filterMap_cons, List.append_assoc]
      | false =>
        simp only [hok, Bool.false_eq_true, if_false]
        rw [ih]
        simp [runState, hg, hok, List.filter_cons, List.filterMap_cons, List.append_assoc]

/-- One chunk: the state collects per-asset outcomes in order, and the
`Promise.all` rejects exactly when some member threw before its `try`. -/
theorem downloadChunk_eq (net : Net) (s : DLState) (chunk : List Asset) :
    downloadChunk net s chunk =
      (runState net s chunk, chunk.any (fun a => !goodAsset a)) := by
  unfold downloadChunk
  rw [downloadChunk_foldl]
  simp

/-- `runState` splits over list concatenation. -/
theorem runState_append (net : Net) (s : DLState) (l₁ l₂ : List Asset) :
    runState net s (l₁ ++ l₂) = runState net (runState net s l₁) l₂ := by
  simp [runState, List.filter_append, List.filterMap_append, List.append_assoc]

/-! ## Helper lemmas: the chunk loop -/

/-- When no asset of any chunk throws before its `try`, the chunk loop
completes and the final state accumulates the per-asset outcomes of the
concatenation of the chunks, in order. -/
theorem downloadChunks_ok (net : Net) (cs : List (List Asset)) :
    ∀ s : DLState, (∀ a ∈ cs.flatten, goodAsset a = true) →
      downloadChunks net s cs = (runState net s cs.flatten, false) := by
  induction cs with
  | nil => intro s _; simp [downloadChunks, runState]
  | cons c cs ih =>
    intro s hg
    have hgc : ∀ a ∈ c, goodAsset a = true := fun a ha =>
      hg a (List.mem_flatten.mpr ⟨c, List.mem_cons_self c cs, ha⟩)
    have hany : c.any (fun a => !goodAsset a) = false := by
      simp only [List.any_eq_false]
      intro a ha
      simp [hgc a ha]
    simp only [downloadChunks, downloadChunk_eq, hany]
    rw [ih (runState net s c) (fun a ha => hg a (by
      rw [List.flatten_cons]
      exact List.mem_append_right _ ha))]
    rw [List.flatten_cons, runState_append]

/-- The chunk loop as a plain fold over the chunks, when nothing
aborts. -/
theorem downloadChunks_eq_foldl (net : Net) (cs : List (List Asset)) :
    ∀ s : DLState, (∀ a ∈ cs.flatten, goodAsset a = true) →
      downloadChunks net s cs =
        (cs.foldl (fun s c => (downloadChunk net s c).1) s, false) := by
  induction cs with
  | nil => intro s _; simp [downloadChunks]
  | cons c cs ih =>
    intro s hg
    have hany : c.any (fun a => !goodAsset a) = false := by
      simp only [List.any_eq_false]
      intro a ha
      simp [hg a (List.mem_flatten.mpr ⟨c, List.mem_cons_self c cs, ha⟩)]
    simp only [downloadChunks, downloadChunk_eq, hany, List.foldl_cons]
    rw [ih (runState net s c) (fun a ha => hg a (by
      rw [List.flatten_cons]
      exact List.mem_append_right _ ha))]
    simp [downloadChunk_eq]

/-- When every asset of the chunks before `c` is fine and some asset of
`c` throws before its `try`, the loop stops after `c`: the chunks of
`post` are never started and the final state reflects `pre` and `c`
only. -/
theorem downloadChunks_abort (net : Net) (pre : List (List Asset)) :
    ∀ (s : DLState) (c : List Asset) (post : List (List Asset)),
      (∀ a ∈ pre.flatten, goodAsset a = true) →
      (∃ a ∈ c, goodAsset a = false) →
      downloadChunks net s (pre ++ c :: post) =
        (runState net (runState net s pre.flatten) c, true) := by
  induction pre with
  | nil =>
    intro s c post _ hbad
    have hany : c.any (fun a => !goodAsset a) = true := by
      simp only [List.any_eq_true]
      obtain ⟨a, ha, hga⟩ := hbad
      exact ⟨a, ha, by simp [hga]⟩
    simp [downloadChunks, downloadChunk_eq, hany, runState]
  | cons p pre ih =>
    intro s c post hg hbad
    have hgp : ∀ a ∈ p, goodAsset a = true := fun a ha =>
      hg a (List.mem_flatten.mpr ⟨p, List.mem_cons_self p pre, ha⟩)
    have hany : p.any (fun a => !goodAsset a) = false := by
      simp only [List.any_eq_false]
      intro a ha
      simp [hgp a ha]
    have hstep :
        downloadChunks net s ((p :: pre) ++ c :: post) =
          downloadChunks net (runState net s p) (pre ++ c :: post) := by
      rw [List.cons_append]
      simp only [downloadChunks, downloadChunk_eq, hany]
    rw [hstep, ih (runState net s p) c post
      (fun a ha => hg a (by
        rw [List.flatten_cons]
        exact List.mem_append_right _ ha)) hbad]
    rw [List.flatten_cons, runState_append]

/-- Any chunk list containing an asset that throws splits at the first
chunk containing such an asset. -/
theorem exists_first_bad (cs : List (List Asset))
    (h : ∃ a ∈ cs.flatten, goodAsset a = false) :
    ∃ pre c post, cs = pre ++ c :: post ∧
      (∀ a ∈ pre.flatten, goodAsset a = true) ∧
      (∃ a ∈ c, goodAsset a = false) := by
  induction cs with
  | nil => simp at h
  | cons c cs ih =>
    by_cases hc : ∃ a ∈ c, goodAsset a = false
    · exact ⟨[], c, cs, by simp, by simp, hc⟩
    · push_neg at hc
      have hcg : ∀ a ∈ c, goodAsset a = true := by
        intro a ha
        have hne := hc a ha
        revert hne
        cases goodAsset a <;> simp
      obtain ⟨a, ha, hga⟩ := h
      rw [List.flatten_cons, List.mem_append] at ha
      rcases ha with ha | ha
      · exact absurd hga (by simp [hcg a ha])
      · obtain ⟨pre, c', post, hsplit, hpre, hbad⟩ := ih ⟨a, ha, hga⟩
        refine ⟨c :: pre, c', post, by simp [hsplit], ?_, hbad⟩
        intro b hb
        rw [List.flatten_cons, List.mem_append] at hb
        rcases hb with hb | hb
        · exact hcg b hb
        · exact hpre b hb

/-! ## Helper lemmas: the chunking -/

/-- The chunks concatenate back to the input list: the partition is
contiguous and in input order. -/
theorem chunksOf_flatten (B : Nat) (l : List α) : (chunksOf B l).flatten = l := by
  induction l using chunksOf.induct B with
  | case1 => simp [chunksOf]
  | case2 x xs ih =>
    rw [chunksOf, List.flatten_cons, ih]
    simp [List.take_append_drop]

/-- There are `⌈N / B⌉` chunks (as `(N + (B - 1)) / B`). -/
theorem chunksOf_length (B : Nat) (hB : 1 ≤ B) (l : List α) :
    (chunksOf B l).length = (l.length + (B - 1)) / B := by
  induction l using chunksOf.induct B with
  | case1 =>
    rw [chunksOf]
    simp only [List.length_nil, Nat.zero_add]
    exact (Nat.div_eq_of_lt (by omega)).symm
  | case2 x xs ih =>
    rw [chunksOf, List.length_cons, ih, List.length_drop, List.length_cons]
    rcases Nat.le_total (B - 1) xs.length with hle | hlt
    · have h₁ : xs.length - (B - 1) + (B - 1) = xs.length := Nat.sub_add_cancel hle
      have h₂ : xs.length + 1 + (B - 1) = xs.length + B := by omega
      rw [h₁, h₂]
      rw [Nat.add_div_right xs.length (by omega : 0 < B)]
    · have h₁ : xs.length - (B - 1) = 0 := Nat.sub_eq_zero_of_le hlt
      have h₂ : (0 + (B - 1)) / B = 0 := Nat.div_eq_of_lt (by omega)
      have h₃ : (xs.length + 1 + (B - 1)) / B = 1 :=
        Nat.div_eq_of_lt_le (by omega) (by omega)
      rw [h₁, h₂, h₃]

/-- Every chunk holds at most `B` assets: at most `B` download attempts
are started per chunk. -/
theorem chunksOf_le (B : Nat) (hB : 1 ≤ B) (l : List α) :
    ∀ c ∈ chunksOf B l, c.length ≤ B := by
  induction l using chunksOf.induct B with
  | case1 => simp [chunksOf]
  | case2 x xs ih =>
    intro c hc
    rw [chunksOf] at hc
    rcases List.mem_cons.mp hc with hc | hc
    · subst hc
      simp only [List.length_cons, List.length_take]
      omega
    · exact ih c hc

/-! ## Helper lemmas: counting outcomes -/

/-- When every asset is fine, the failed-asset suffix is exactly the
descriptors whose download failed. -/
theorem filter_good_not (net : Net) (l : List Asset)
    (hg : ∀ a ∈ l, goodAsset a = true) :
    l.filter (fun a => goodAsset a && !downloadOk net a) =
      l.filter (fun a => !downloadOk net a) :=
  List.filter_congr (fun a ha => by simp [hg a ha])

/-- When every asset is fine, one filename is written per successful
download. -/
theorem filterMap_good_length (net : Net) (l : List Asset)
    (hg : ∀ a ∈ l, goodAsset a = true) :
    (l.filterMap
        (fun a => if goodAsset a && downloadOk net a then derivedName a else none)).length =
      (l.filter (fun a => downloadOk net a)).length := by
  induction l with
  | nil => rfl
  | cons a rest ih =>
    have hga : goodAsset a = true := hg a (List.mem_cons_self a rest)
    have hrest : ∀ b ∈ rest, goodAsset b = true := fun b hb =>
      hg b (List.mem_cons_of_mem a hb)
    obtain ⟨nm, hnm⟩ := Option.isSome_iff_exists.mp (by simpa [goodAsset] using hga)
    cases hok : downloadOk net a with
    | true =>
      simp only [List.filterMap_cons, List.filter_cons, hga, hok, Bool.true_and,
        if_true, hnm, List.length_cons]
      rw [ih hrest]
    | false =>
      simp only [List.filterMap_cons, List.filter_cons, hga, hok, Bool.true_and,
        Bool.false_eq_true, if_false]
      exact ih hrest

/-- `downloadAssets` on a non-empty list of fine assets: the run
completes, the final state is the accumulated per-asset outcome, the
manifest comes from `#logFailedAssets`, and the success line reports
`total - #failedAssets.length` of `total`. -/
theorem downloadAssets_eq_good (net : Net) (s₀ : DLState) (assets : List Asset)
    (hg : ∀ a ∈ assets, goodAsset a = true) (hne : assets ≠ []) :
    downloadAssets net s₀ assets =
      { state := runState net s₀ assets, warned := false,
        manifest := logFailedAssets (runState net s₀ assets),
        successLog := some ((assets.length : Int) -
          ((runState net s₀ assets).failedAssets.length : Int), assets.length),
        errorLogged := false } := by
  unfold downloadAssets
  rw [if_neg (fun h => hne (List.eq_nil_of_length_eq_zero h))]
  rw [downloadChunks_ok net _ s₀ (by rw [chunksOf_flatten]; exact hg), chunksOf_flatten]

/-! ## Helper lemmas: the pagination loop -/

/-- One request is issued per page of a served chain. -/
theorem chainRequests_length :
    ∀ (c : Option String) (pages : List Page),
      (chainRequests c pages).length = pages.length := by
  intro c pages
  induction pages generalizing c with
  | nil => rfl
  | cons p rest ih => simp [chainRequests, ih]

/-- Walking a served chain: the loop accumulates every page's items in
page order, issues one request per page (the cursor of each response
attached to the next request), and stops at the first falsy cursor. -/
theorem listLoop_chain (server : ListServer) :
    ∀ (pages : List Page) (c : Option String) (acc : List Asset)
      (reqs : List (Option String)) (fuel : Nat),
      chainServes server c pages → pages.length ≤ fuel →
      listLoop server fuel c acc reqs =
        .ok (acc ++ (pages.map Page.items).flatten) (reqs ++ chainRequests c pages) := by
  intro pages
  induction pages with
  | nil => intro c acc reqs fuel h _; exact absurd h (by simp [chainServes])
  | cons p rest ih =>
    intro c acc reqs fuel h hlen
    cases fuel with
    | zero => simp at hlen
    | succ f =>
      cases rest with
      | nil =>
        obtain ⟨hs, hok, hcur⟩ := h
        simp only [listLoop, hs, hok, if_true, hcur, Bool.false_eq_true]
        simp [chainRequests]
      | cons q rest₂ =>
        obtain ⟨hs, hok, hcur, hchain⟩ := h
        simp only [listLoop, hs, hok, if_true, hcur]
        rw [ih p.cursor (acc ++ p.items) (reqs ++ [c]) f hchain (by simpa using hlen)]
        simp [chainRequests, List.append_assoc]

/-- Walking a chain that ends at a non-2xx response: the loop throws at
that response, yielding the caught `httpError` outcome — no partial
item list survives. -/
theorem listLoop_chainErr (server : ListServer) :
    ∀ (pages : List Page) (c : Option String) (acc : List Asset)
      (reqs : List (Option String)) (fuel : Nat),
      chainToError server c pages → pages.length < fuel →
      listLoop server fuel c acc reqs =
        .httpError (reqs ++ chainRequests c pages ++ [chainErrCursor c pages]) := by
  intro pages
  induction pages with
  | nil =>
    intro c acc reqs fuel h hlen
    cases fuel with
    | zero => simp at hlen
    | succ f =>
      have hbad : statusOk (server c).status = false := h
      simp only [listLoop, hbad, Bool.false_eq_true, if_false]
      simp [chainRequests, chainErrCursor]
  | cons p rest ih =>
    intro c acc reqs fuel h hlen
    cases fuel with
    | zero => simp at hlen
    | succ f =>
      obtain ⟨hs, hok, hcur, hchain⟩ := h
      simp only [listLoop, hs, hok, if_true, hcur]
      rw [ih p.cursor (acc ++ p.items) (reqs ++ [c]) f hchain (by simpa using hlen)]
      simp [chainRequests, chainErrCursor, List.append_assoc]

/-! ## Claim theorems -/

/-- **C1**: for every asset list of length `N` handed to
`downloadAssets` with batch size `B = 10`, the list is partitioned into
`⌈N / B⌉` contiguous chunks in input order, each chunk starts at most
`B` download attempts, and every download of a chunk completes before
any download of the next chunk starts (the final state is the strict
in-order fold of the chunk step over the chunks). -/
theorem C1_batching_policy (net : Net) (s₀ : DLState) (assets : List Asset)
    (hg : ∀ a ∈ assets, goodAsset a = true) :
    (chunksOf 10 assets).length = (assets.length + 9) / 10 ∧
    (chunksOf 10 assets).flatten = assets ∧
    (∀ c ∈ chunksOf 10 assets, c.length ≤ 10) ∧
    (downloadAssets net s₀ assets).errorLogged = false ∧
    (downloadAssets net s₀ assets).state =
      (chunksOf 10 assets).foldl (fun s c => (downloadChunk net s c).1) s₀ := by
  have hmain : (downloadAssets net s₀ assets).errorLogged = false ∧
      (downloadAssets net s₀ assets).state =
        (chunksOf 10 assets).foldl (fun s c => (downloadChunk net s c).1) s₀ := by
    by_cases hne : assets = []
    · subst hne
      exact ⟨rfl, by rw [chunksOf]; rfl⟩
    · unfold downloadAssets
      rw [if_neg (fun h => hne (List.eq_nil_of_length_eq_zero h))]
      rw [downloadChunks_eq_foldl net _ s₀ (by rw [chunksOf_flatten]; exact hg)]
      exact ⟨rfl, rfl⟩
  exact ⟨chunksOf_length 10 (by omega) assets, chunksOf_flatten 10 assets,
    chunksOf_le 10 (by omega) assets, hmain.1, hmain.2⟩

/-- **C2**: over a run on `N` fine assets from a fresh instance, the
number of files written plus the number of failed assets is `N`, every
failed entry is a descriptor from the input list, and one failing
download appends exactly one entry to `#failedAssets`. -/
theorem C2_partition_invariant (net : Net) (assets : List Asset)
    (hg : ∀ a ∈ assets, goodAsset a = true) :
    (downloadAssets net ⟨[], []⟩ assets).state.written.length +
        (downloadAssets net ⟨[], []⟩ assets).state.failedAssets.length = assets.length ∧
    (∀ a ∈ (downloadAssets net ⟨[], []⟩ assets).state.failedAssets, a ∈ assets) ∧
    (∀ (s : DLState) (a : Asset), goodAsset a = true → downloadOk net a = false →
      downloadAsset net a s = .ok { s with failedAssets := s.failedAssets ++ [a] }) := by
  have happend : ∀ (s : DLState) (a : Asset), goodAsset a = true → downloadOk net a = false →
      downloadAsset net a s = .ok { s with failedAssets := s.failedAssets ++ [a] } := by
    intro s a hga hok
    rw [downloadAsset_eq]
    obtain ⟨nm, hnm⟩ := Option.isSome_iff_exists.mp (by simpa [goodAsset] using hga)
    rw [hnm]
    simp [hok]
  by_cases hne : assets = []
  · subst hne
    exact ⟨rfl, by simp [downloadAssets], happend⟩
  · rw [downloadAssets_eq_good net ⟨[], []⟩ assets hg hne]
    refine ⟨?_, ?_, happend⟩
    · simp only [runState, List.nil_append]
      rw [filterMap_good_length net assets hg, filter_good_not net assets hg]
      exact Eq.symm (List.length_eq_length_filter_add _)
    · intro a ha
      simp only [runState, List.nil_append] at ha
      exact List.mem_of_mem_filter ha

/-- **C3**: after all chunks of a run complete, `failed-assets.json` is
written iff `#failedAssets` is non-empty, and when written it holds
exactly the entries of `#failedAssets`. -/
theorem C3_failure_manifest (net : Net) (assets : List Asset)
    (hg : ∀ a ∈ assets, goodAsset a = true) :
    ((downloadAssets net ⟨[], []⟩ assets).manifest ≠ none ↔
      (downloadAssets net ⟨[], []⟩ assets).state.failedAssets ≠ []) ∧
    (∀ m, (downloadAssets net ⟨[], []⟩ assets).manifest = some m →
      m = (downloadAssets net ⟨[], []⟩ assets).state.failedAssets) := by
  by_cases hne : assets = []
  · subst hne
    exact ⟨by simp [downloadAssets], by simp [downloadAssets]⟩
  · rw [downloadAssets_eq_good net ⟨[], []⟩ assets hg hne]
    simp only [logFailedAssets]
    constructor
    · by_cases h : (runState net ⟨[], []⟩ assets).failedAssets.length = 0
      · simp [h, List.eq_nil_of_length_eq_zero h]
      · simp only [h, if_false]
        simp only [ne_eq, List.length_eq_zero] at h
        simp [h]
    · intro m hm
      by_cases h : (runState net ⟨[], []⟩ assets).failedAssets.length = 0
      · rw [if_pos h] at hm
        exact absurd hm (by simp)
      · rw [if_neg h] at hm
        exact (Option.some_inj.mp hm).symm

/-- **C4**: the on-disk filename of a download is derived from the
descriptor's `url` alone — query string stripped, last path segment,
percent-decoded — never from its `filename` field; on the URL
`https://cdn.example/img/abc123.png?auth=xyz` it is `abc123.png`. -/
theorem C4_derived_filename :
    (∀ (u f : String) (net : Net) (s : DLState) (nm : String),
      derivedFilename u = some nm → downloadOk net (Asset.mk (some u) f) = true →
      downloadAsset net (Asset.mk (some u) f) s =
        .ok { s with written := s.written ++ [nm] }) ∧
    derivedFilename "https://cdn.example/img/abc123.png?auth=xyz" = some "abc123.png" := by
  constructor
  · intro u f net s nm hnm hok
    rw [downloadAsset_eq]
    have hdn : derivedName (Asset.mk (some u) f) = some nm := by
      simp [derivedName, hnm]
    rw [hdn]
    simp [hok]
  · decide

/-- **C5**: for every served sequence of listing pages,
`exportAssetsList` returns the concatenation of the pages' items in
page order, issues the next request (with the page's cursor attached)
exactly when a response carries a truthy cursor, terminates at the
first response without one, and issues exactly one request per page. -/
theorem C5_pagination (server : ListServer) (pages : List Page) (fuel : Nat)
    (h : chainServes server none pages) (hfuel : pages.length ≤ fuel) :
    exportAssetsList server fuel =
      .ok (pages.map Page.items).flatten (chainRequests none pages) ∧
    (chainRequests none pages).length = pages.length := by
  constructor
  · unfold exportAssetsList
    rw [listLoop_chain server pages none [] [] fuel h hfuel]
    simp
  · exact chainRequests_length none pages

/-- **C6**: a non-2xx status on any listing page aborts the whole
listing — `exportAssetsList` yields the caught-error outcome, no
partial list, and the downloader pipeline downloads nothing — whereas a
non-2xx status on a single asset download only records that asset in
`#failedAssets` while every other asset is still attempted and the
batch completes with its success log. -/
theorem C6_failure_granularity :
    (∀ (server : ListServer) (pages : List Page) (fuel : Nat) (net : Net) (s₀ : DLState),
      chainToError server none pages → pages.length < fuel →
      (∃ reqs, exportAssetsList server fuel = .httpError reqs) ∧
      downloadAssetsPipeline server fuel net s₀ =
        { listingFile := none, dl := none, state := s₀, outOfFuel := false }) ∧
    (∀ (net : Net) (assets : List Asset) (a : Asset) (st : Nat),
      (∀ b ∈ assets, goodAsset b = true) → a ∈ assets →
      net a = some st → statusOk st = false →
      (downloadAssets net ⟨[], []⟩ assets).errorLogged = false ∧
      (downloadAssets net ⟨[], []⟩ assets).state.failedAssets =
        assets.filter (fun b => !downloadOk net b) ∧
      a ∈ (downloadAssets net ⟨[], []⟩ assets).state.failedAssets ∧
      (downloadAssets net ⟨[], []⟩ assets).successLog =
        some ((assets.length : Int) -
          ((assets.filter (fun b => !downloadOk net b)).length : Int), assets.length)) := by
  constructor
  · intro server pages fuel net s₀ herr hfuel
    have hloop := listLoop_chainErr server pages none [] [] fuel herr hfuel
    have hlist : exportAssetsList server fuel =
        .httpError (([] : List (Option String)) ++ chainRequests none pages ++
          [chainErrCursor none pages]) := by
      unfold exportAssetsList
      exact hloop
    refine ⟨⟨_, hlist⟩, ?_⟩
    unfold downloadAssetsPipeline
    rw [hlist]
  · intro net assets a st hg ha hnet hst
    have hne : assets ≠ [] := fun h => by subst h; exact absurd ha (List.not_mem_nil a)
    have hoka : downloadOk net a = false := by
      unfold downloadOk
      rw [hnet]
      exact hst
    rw [downloadAssets_eq_good net ⟨[], []⟩ assets hg hne]
    have hfail : (runState net ⟨[], []⟩ assets).failedAssets =
        assets.filter (fun b => !downloadOk net b) := by
      simp only [runState, List.nil_append]
      exact filter_good_not net assets hg
    refine ⟨rfl, hfail, ?_, ?_⟩
    · rw [hfail]
      exact List.mem_filter.mpr ⟨ha, by simp [hoka]⟩
    · rw [hfail]

/-- **C7 counterexample**: `exportCustomTypes` with a 2xx response whose
body is an empty array does not warn, does write
`custom-types.json`, and does return a result — so the claim that
every exporter treats zero items as warn-and-skip is false on the
custom-types exporter. -/
theorem C7_counterexample :
    ¬ ((exportCustomTypes (Except.ok (200, ([] : List Unit)))).warned = true ∧
       (exportCustomTypes (Except.ok (200, ([] : List Unit)))).written = none ∧
       (exportCustomTypes (Except.ok (200, ([] : List Unit)))).ret = none) := by
  decide

/-- **C7 (amended)**: for the documents, tags and shared-slices
exporters, the repository-details exporter and the asset downloader, an
empty fetched result is a normal outcome: a warning is logged, no file
is written, and no result is returned.  (The custom-types exporter —
and the assets-list exporter — instead write their file even when the
fetched collection is empty.) -/
theorem C7_empty_result_handling :
    (∀ {δ : Type} (getType : δ → String),
      exportDocuments getType (.ok []) =
        { warned := true, mainFile := none, typeFiles := [], ret := none,
          errorLogged := false }) ∧
    exportTags (.ok []) =
      { warned := true, written := none, ret := none, errorLogged := false } ∧
    (∀ {σ : Type} (st : Nat), statusOk st = true →
      exportSharedSlices (σ := σ) (.ok (st, [])) =
        { warned := true, written := none, ret := none, errorLogged := false }) ∧
    (∀ (net : Net) (s₀ : DLState),
      downloadAssets net s₀ [] =
        { state := s₀, warned := true, manifest := none, successLog := none,
          errorLogged := false }) ∧
    (∀ {ρ : Type},
      exportRepositoryDetails (ρ := ρ) (.ok none) =
        { warned := true, written := none, ret := none, errorLogged := false }) := by
  refine ⟨fun _ => rfl, rfl, fun st hst => ?_, fun net s₀ => rfl, rfl⟩
  simp [exportSharedSlices, hst]

/-- **C8**: every exporter and the download pipeline catches errors at
its own boundary — a rejected fetch yields a logged-error result with
no file and no return value, a listing abort yields a pipeline result
with no download phase — so the orchestrator's `Promise.all` never
rejects and `run()` completes and logs the duration (given that the
pagination loop terminates at all). -/
theorem C8_run_never_rejects {ρ δ κ σ : Type} (env : RunEnv ρ δ κ σ)
    (hfuel : listLoop env.assetServer env.fuel none [] [] ≠ .noFuel) :
    (run env).durationLogged = true ∧
    (run env).assets.outOfFuel = false ∧
    exportRepositoryDetails (ρ := ρ) (.error ()) =
      { warned := false, written := none, ret := none, errorLogged := true } ∧
    (∀ g : δ → String, exportDocuments g (.error ()) =
      { warned := false, mainFile := none, typeFiles := [], ret := none,
        errorLogged := true }) ∧
    exportTags (.error ()) =
      { warned := false, written := none, ret := none, errorLogged := true } ∧
    exportCustomTypes (κ := κ) (.error ()) =
      { warned := false, written := none, ret := none, errorLogged := true } ∧
    exportSharedSlices (σ := σ) (.error ()) =
      { warned := false, written := none, ret := none, errorLogged := true } ∧
    (∀ reqs, exportAssetsList env.assetServer env.fuel = .httpError reqs →
      (run env).assets.dl = none ∧ (run env).assets.listingFile = none) := by
  have hfuel' : exportAssetsList env.assetServer env.fuel ≠ .noFuel := hfuel
  refine ⟨rfl, ?_, rfl, fun g => rfl, rfl, rfl, rfl, ?_⟩
  · show (downloadAssetsPipeline env.assetServer env.fuel env.net ⟨[], []⟩).outOfFuel = false
    unfold downloadAssetsPipeline
    cases h : exportAssetsList env.assetServer env.fuel with
    | noFuel => exact absurd h hfuel'
    | httpError reqs => rfl
    | ok items reqs => rfl
  · intro reqs hreq
    show (downloadAssetsPipeline env.assetServer env.fuel env.net ⟨[], []⟩).dl = none ∧
      (downloadAssetsPipeline env.assetServer env.fuel env.net ⟨[], []⟩).listingFile = none
    unfold downloadAssetsPipeline
    rw [hreq]
    exact ⟨rfl, rfl⟩

/-- **C9**: a descriptor with no `url` string throws before the `try`
of `downloadAsset`; the descriptor is not recorded in `#failedAssets`,
the rejection propagates through the chunk's `Promise.all` to the outer
catch of `downloadAssets`, all chunks after the first chunk containing
such a descriptor are never started, and neither the manifest write nor
the success-count log happens. -/
theorem C9_missing_url_aborts (net : Net) (assets : List Asset) (a : Asset)
    (ha : a ∈ assets) (hurl : a.url = none) :
    (downloadAssets net ⟨[], []⟩ assets).errorLogged = true ∧
    (downloadAssets net ⟨[], []⟩ assets).manifest = none ∧
    (downloadAssets net ⟨[], []⟩ assets).successLog = none ∧
    a ∉ (downloadAssets net ⟨[], []⟩ assets).state.failedAssets ∧
    ∃ pre c post, chunksOf 10 assets = pre ++ c :: post ∧
      (∀ b ∈ pre.flatten, goodAsset b = true) ∧
      (∃ b ∈ c, goodAsset b = false) ∧
      (downloadAssets net ⟨[], []⟩ assets).state =
        runState net (runState net ⟨[], []⟩ pre.flatten) c := by
  have hga : goodAsset a = false := by simp [goodAsset, derivedName, hurl]
  have hne : assets ≠ [] := fun h => by subst h; exact absurd ha (List.not_mem_nil a)
  obtain ⟨pre, c, post, hsplit, hpre, hbad⟩ :=
    exists_first_bad (chunksOf 10 assets)
      (by rw [chunksOf_flatten]; exact ⟨a, ha, hga⟩)
  have hres : downloadAssets net ⟨[], []⟩ assets =
      { state := runState net (runState net ⟨[], []⟩ pre.flatten) c, warned := false,
        manifest := none, successLog := none, errorLogged := true } := by
    unfold downloadAssets
    rw [if_neg (fun h => hne (List.eq_nil_of_length_eq_zero h)), hsplit,
      downloadChunks_abort net pre ⟨[], []⟩ c post hpre hbad]
  rw [hres]
  refine ⟨rfl, rfl, rfl, ?_, pre, c, post, hsplit, hpre, hbad, rfl⟩
  intro hmem
  simp only [runState, List.nil_append] at hmem
  rcases List.mem_append.mp hmem with hmem | hmem
  · have := List.of_mem_filter hmem
    rw [hga] at this
    simp at this
  · have := List.of_mem_filter hmem
    rw [hga] at this
    simp at this

/-- **C10**: `#failedAssets` is created empty at construction and never
reset, so a second `downloadAssets` call on the same instance produces
a manifest that still contains the first run's failures and a success
log that subtracts the accumulated failure count of both runs from the
second run's total. -/
theorem C10_failures_accumulate (net₁ net₂ : Net) (as₁ as₂ : List Asset)
    (hg₁ : ∀ b ∈ as₁, goodAsset b = true) (hg₂ : ∀ b ∈ as₂, goodAsset b = true)
    (hfail₁ : as₁.filter (fun b => !downloadOk net₁ b) ≠ []) (hne₂ : as₂ ≠ []) :
    (downloadAssets net₂ (downloadAssets net₁ ⟨[], []⟩ as₁).state as₂).state.failedAssets =
      as₁.filter (fun b => !downloadOk net₁ b) ++
        as₂.filter (fun b => !downloadOk net₂ b) ∧
    (downloadAssets net₂ (downloadAssets net₁ ⟨[], []⟩ as₁).state as₂).manifest =
      some (as₁.filter (fun b => !downloadOk net₁ b) ++
        as₂.filter (fun b => !downloadOk net₂ b)) ∧
    (downloadAssets net₂ (downloadAssets net₁ ⟨[], []⟩ as₁).state as₂).successLog =
      some ((as₂.length : Int) -
        (((as₁.filter (fun b => !downloadOk net₁ b)).length : Int) +
          ((as₂.filter (fun b => !downloadOk net₂ b)).length : Int)), as₂.length) := by
  have hne₁ : as₁ ≠ [] := fun h => hfail₁ (by subst h; rfl)
  have hs₁ : (downloadAssets net₁ ⟨[], []⟩ as₁).state = runState net₁ ⟨[], []⟩ as₁ := by
    rw [downloadAssets_eq_good net₁ ⟨[], []⟩ as₁ hg₁ hne₁]
  rw [hs₁, downloadAssets_eq_good net₂ _ as₂ hg₂ hne₂]
  have hfa : (runState net₂ (runState net₁ ⟨[], []⟩ as₁) as₂).failedAssets =
      as₁.filter (fun b => !downloadOk net₁ b) ++
        as₂.filter (fun b => !downloadOk net₂ b) := by
    simp only [runState, List.nil_append]
    rw [filter_good_not net₁ as₁ hg₁, filter_good_not net₂ as₂ hg₂]
  refine ⟨hfa, ?_, ?_⟩
  · simp only [logFailedAssets, hfa]
    rw [if_neg (fun h => hfail₁ (by
      rcases List.append_eq_nil.mp (List.eq_nil_of_length_eq_zero h) with ⟨h₁, _⟩
      exact h₁))]
  · rw [hfa]
    simp [List.length_append]

/-! ## Witnesses: each hypothesised claim theorem applied at a concrete
input -/

/-- C1 at eleven concrete assets (two chunks) downloaded with one
404. -/
theorem C1_batching_policy_witness :
    (chunksOf 10 ((List.range 11).map sampleAsset)).length =
      (((List.range 11).map sampleAsset).length + 9) / 10 ∧
    (chunksOf 10 ((List.range 11).map sampleAsset)).flatten =
      (List.range 11).map sampleAsset ∧
    (∀ c ∈ chunksOf 10 ((List.range 11).map sampleAsset), c.length ≤ 10) ∧
    (downloadAssets sampleNet ⟨[], []⟩ ((List.range 11).map sampleAsset)).errorLogged
      = false ∧
    (downloadAssets sampleNet ⟨[], []⟩ ((List.range 11).map sampleAsset)).state =
      (chunksOf 10 ((List.range 11).map sampleAsset)).foldl
        (fun s c => (downloadChunk sampleNet s c).1) ⟨[], []⟩ :=
  C1_batching_policy sampleNet ⟨[], []⟩ ((List.range 11).map sampleAsset) (by decide)

/-- C2 at three concrete assets of which one download fails. -/
theorem C2_partition_invariant_witness :
    (downloadAssets sampleNet ⟨[], []⟩
        [sampleAsset 1, sampleAsset 2, sampleAsset 3]).state.written.length +
      (downloadAssets sampleNet ⟨[], []⟩
        [sampleAsset 1, sampleAsset 2, sampleAsset 3]).state.failedAssets.length = 3 ∧
    (∀ a ∈ (downloadAssets sampleNet ⟨[], []⟩
        [sampleAsset 1, sampleAsset 2, sampleAsset 3]).state.failedAssets,
      a ∈ [sampleAsset 1, sampleAsset 2, sampleAsset 3]) ∧
    (∀ (s : DLState) (a : Asset), goodAsset a = true → downloadOk sampleNet a = false →
      downloadAsset sampleNet a s = .ok { s with failedAssets := s.failedAssets ++ [a] }) :=
  C2_partition_invariant sampleNet [sampleAsset 1, sampleAsset 2, sampleAsset 3] (by decide)

/-- C3 at two concrete assets of which one download fails. -/
theorem C3_failure_manifest_witness :
    ((downloadAssets sampleNet ⟨[], []⟩ [sampleAsset 2, sampleAsset 3]).manifest ≠ none ↔
      (downloadAssets sampleNet ⟨[], []⟩
        [sampleAsset 2, sampleAsset 3]).state.failedAssets ≠ []) ∧
    (∀ m, (downloadAssets sampleNet ⟨[], []⟩ [sampleAsset 2, sampleAsset 3]).manifest
        = some m →
      m = (downloadAssets sampleNet ⟨[], []⟩
        [sampleAsset 2, sampleAsset 3]).state.failedAssets) :=
  C3_failure_manifest sampleNet [sampleAsset 2, sampleAsset 3] (by decide)

/-- C4 at the specification's example URL, with a descriptor whose
`filename` field (`My Photo.png`) differs from the derived name. -/
theorem C4_derived_filename_witness :
    downloadAsset (fun _ => some 200)
        { url := some "https://cdn.example/img/abc123.png?auth=xyz",
          filename := "My Photo.png" } ⟨[], []⟩ =
      .ok { failedAssets := [], written := ["abc123.png"] } ∧
    derivedFilename "https://cdn.example/img/abc123.png?auth=xyz" = some "abc123.png" :=
  ⟨C4_derived_filename.1 "https://cdn.example/img/abc123.png?auth=xyz" "My Photo.png"
      (fun _ => some 200) ⟨[], []⟩ "abc123.png" (by decide) (by decide),
    C4_derived_filename.2⟩

/-- C5 at the specification's two-page example: `[a, b, c]` is returned
after exactly two requests, the second carrying cursor `c1`. -/
theorem C5_pagination_witness :
    exportAssetsList sampleServer 2 =
      .ok (samplePages.map Page.items).flatten (chainRequests none samplePages) ∧
    (chainRequests none samplePages).length = samplePages.length :=
  C5_pagination sampleServer samplePages 2
    ⟨rfl, by decide, by decide, rfl, by decide, by decide⟩ (by decide)

/-- C6 at a server whose second listing page answers 500, and at a
two-asset batch whose second asset gets a 404. -/
theorem C6_failure_granularity_witness :
    ((∃ reqs, exportAssetsList sampleBadServer 3 = .httpError reqs) ∧
      downloadAssetsPipeline sampleBadServer 3 sampleNet ⟨[], []⟩ =
        { listingFile := none, dl := none, state := ⟨[], []⟩, outOfFuel := false }) ∧
    ((downloadAssets sampleNet ⟨[], []⟩ [sampleAsset 1, sampleAsset 2]).errorLogged
        = false ∧
      (downloadAssets sampleNet ⟨[], []⟩ [sampleAsset 1, sampleAsset 2]).state.failedAssets
        = [sampleAsset 1, sampleAsset 2].filter (fun b => !downloadOk sampleNet b) ∧
      sampleAsset 2 ∈ (downloadAssets sampleNet ⟨[], []⟩
        [sampleAsset 1, sampleAsset 2]).state.failedAssets ∧
      (downloadAssets sampleNet ⟨[], []⟩ [sampleAsset 1, sampleAsset 2]).successLog =
        some ((([sampleAsset 1, sampleAsset 2].length : Int) -
          ((([sampleAsset 1, sampleAsset 2].filter
            (fun b => !downloadOk sampleNet b)).length : Int))),
          [sampleAsset 1, sampleAsset 2].length)) :=
  ⟨C6_failure_granularity.1 sampleBadServer
      [{ status := 200, items := [sampleAsset 0, sampleAsset 1], cursor := some "c1" }]
      3 sampleNet ⟨[], []⟩
      ⟨rfl, by decide, by decide,
        (by decide : statusOk (sampleBadServer (some "c1")).status = false)⟩ (by decide),
    C6_failure_granularity.2 sampleNet [sampleAsset 1, sampleAsset 2] (sampleAsset 2)
      404 (by decide) (by decide) (by decide) (by decide)⟩

/-- C7 (amended) at concrete empty results. -/
theorem C7_empty_result_handling_witness :
    exportDocuments (fun _ : Unit => "t") (.ok []) =
      { warned := true, mainFile := none, typeFiles := [], ret := none,
        errorLogged := false } ∧
    exportSharedSlices (σ := Unit) (.ok (200, [])) =
      { warned := true, written := none, ret := none, errorLogged := false } ∧
    downloadAssets sampleNet ⟨[], []⟩ [] =
      { state := ⟨[], []⟩, warned := true, manifest := none, successLog := none,
        errorLogged := false } :=
  ⟨C7_empty_result_handling.1 (fun _ => "t"),
    C7_empty_result_handling.2.2.1 200 (by decide),
    C7_empty_result_handling.2.2.2.1 sampleNet ⟨[], []⟩⟩

/-- C8 at the sample environment in which every JSON fetch rejects. -/
theorem C8_run_never_rejects_witness :
    (run sampleEnv).durationLogged = true ∧
    (run sampleEnv).assets.outOfFuel = false ∧
    exportRepositoryDetails (ρ := Unit) (.error ()) =
      { warned := false, written := none, ret := none, errorLogged := true } ∧
    (∀ g : Unit → String, exportDocuments g (.error ()) =
      { warned := false, mainFile := none, typeFiles := [], ret := none,
        errorLogged := true }) ∧
    exportTags (.error ()) =
      { warned := false, written := none, ret := none, errorLogged := true } ∧
    exportCustomTypes (κ := Unit) (.error ()) =
      { warned := false, written := none, ret := none, errorLogged := true } ∧
    exportSharedSlices (σ := Unit) (.error ()) =
      { warned := false, written := none, ret := none, errorLogged := true } ∧
    (∀ reqs, exportAssetsList sampleEnv.assetServer sampleEnv.fuel = .httpError reqs →
      (run sampleEnv).assets.dl = none ∧ (run sampleEnv).assets.listingFile = none) :=
  C8_run_never_rejects sampleEnv (by decide)

/-- C9 at a two-asset batch whose second descriptor has no `url`. -/
theorem C9_missing_url_aborts_witness :
    (downloadAssets sampleNet ⟨[], []⟩ [sampleAsset 1, badAsset]).errorLogged = true ∧
    (downloadAssets sampleNet ⟨[], []⟩ [sampleAsset 1, badAsset]).manifest = none ∧
    (downloadAssets sampleNet ⟨[], []⟩ [sampleAsset 1, badAsset]).successLog = none ∧
    badAsset ∉ (downloadAssets sampleNet ⟨[], []⟩
      [sampleAsset 1, badAsset]).state.failedAssets ∧
    (∃ pre c post, chunksOf 10 [sampleAsset 1, badAsset] = pre ++ c :: post ∧
      (∀ b ∈ pre.flatten, goodAsset b = true) ∧
      (∃ b ∈ c, goodAsset b = false) ∧
      (downloadAssets sampleNet ⟨[], []⟩ [sampleAsset 1, badAsset]).state =
        runState sampleNet (runState sampleNet ⟨[], []⟩ pre.flatten) c) :=
  C9_missing_url_aborts sampleNet [sampleAsset 1, badAsset] badAsset (by decide) rfl

/-- C10 at two consecutive runs on the same instance: the first run
fails its single asset, the second succeeds, yet the second run's
manifest and success count still carry the first run's failure. -/
theorem C10_failures_accumulate_witness :
    (downloadAssets sampleNet
        (downloadAssets sampleNet ⟨[], []⟩ [sampleAsset 2]).state
        [sampleAsset 1]).state.failedAssets =
      [sampleAsset 2].filter (fun b => !downloadOk sampleNet b) ++
        [sampleAsset 1].filter (fun b => !downloadOk sampleNet b) ∧
    (downloadAssets sampleNet
        (downloadAssets sampleNet ⟨[], []⟩ [sampleAsset 2]).state
        [sampleAsset 1]).manifest =
      some ([sampleAsset 2].filter (fun b => !downloadOk sampleNet b) ++
        [sampleAsset 1].filter (fun b => !downloadOk sampleNet b)) ∧
    (downloadAssets sampleNet
        (downloadAssets sampleNet ⟨[], []⟩ [sampleAsset 2]).state
        [sampleAsset 1]).successLog =
      some ((([sampleAsset 1].length : Int) -
        ((([sampleAsset 2].filter (fun b => !downloadOk sampleNet b)).length : Int) +
          (([sampleAsset 1].filter (fun b => !downloadOk sampleNet b)).length : Int))),
        [sampleAsset 1].length) :=
  C10_failures_accumulate sampleNet sampleNet [sampleAsset 2] [sampleAsset 1]
    (by decide) (by decide) (by decide) (by decide)

end PrismicBackup
